import Mathlib

/-!
Verification development for the EdDSA multi-signature document backend
(`src/services/eddsaService.js`, the multi-signature service, the QR code
service and their configuration).  The JavaScript services are shallowly
embedded as executable Lean definitions: byte strings become `List Nat`,
JavaScript strings become `String`, timestamps become `Nat` instants that
are passed explicitly, `crypto.randomUUID()` results are passed explicitly,
and a thrown `Error` becomes `Except.error` carrying the thrown message.
The tweetnacl Ed25519 primitives (external library code) are modelled by an
abstract `Ed25519Core` structure together with tweetnacl's documented
length checks, which is all the services' control flow depends on.
-/

namespace Backend

/-- Lowercase hexadecimal digits, as used by `Buffer`/`crypto` hex output. -/
def hexDigits : List Char := "0123456789abcdef".data

/-- The hex character for a value below 16. -/
def hexChar (n : Nat) : Char := hexDigits.getD n '0'

/-- Two-digit lowercase hex rendering of a byte. -/
def byteHex (b : Nat) : List Char := [hexChar ((b >>> 4) % 16), hexChar (b % 16)]

/-- UTF-8 encoding of a single code point (Node `Buffer.from(s, 'utf8')`). -/
def utf8Char (c : Char) : List Nat :=
  let n := c.toNat
  if n < 0x80 then [n]
  else if n < 0x800 then [0xC0 ||| (n >>> 6), 0x80 ||| (n &&& 63)]
  else if n < 0x10000 then
    [0xE0 ||| (n >>> 12), 0x80 ||| ((n >>> 6) &&& 63), 0x80 ||| (n &&& 63)]
  else
    [0xF0 ||| (n >>> 18), 0x80 ||| ((n >>> 12) &&& 63),
     0x80 ||| ((n >>> 6) &&& 63), 0x80 ||| (n &&& 63)]

/-- UTF-8 encoding of a string as a byte list. -/
def utf8Bytes (s : String) : List Nat :=
  s.data.foldr (fun c acc => utf8Char c ++ acc) []

/-- The standard base64 alphabet. -/
def b64Alphabet : List Char :=
  "ABCDEFGHIJKLMNOPQRSTUVWXYZabcdefghijklmnopqrstuvwxyz0123456789+/".data

/-- Base64 digit character for a 6-bit value. -/
def b64Char (n : Nat) : Char := b64Alphabet.getD n 'A'

/-- Base64 encoding with padding (`Buffer.toString('base64')`). -/
def b64EncodeChars : List Nat → List Char
  | [] => []
  | [a] => [b64Char (a >>> 2), b64Char ((a &&& 3) <<< 4), '=', '=']
  | [a, b] => [b64Char (a >>> 2), b64Char (((a &&& 3) <<< 4) ||| (b >>> 4)),
               b64Char ((b &&& 15) <<< 2), '=']
  | a :: b :: c :: rest =>
    b64Char (a >>> 2) :: b64Char (((a &&& 3) <<< 4) ||| (b >>> 4)) ::
    b64Char (((b &&& 15) <<< 2) ||| (c >>> 6)) :: b64Char (c &&& 63) ::
    b64EncodeChars rest

/-- Base64 encoding of a byte list as a string. -/
def base64Encode (bs : List Nat) : String := String.mk (b64EncodeChars bs)

/-- 6-bit value of a base64 digit; `none` for padding and foreign characters,
which Node's lenient decoder skips. -/
def b64Val (c : Char) : Option Nat := b64Alphabet.findIdx? (fun d => d = c)

/-- Regroup decoded 6-bit values into bytes (a trailing lone value yields no
byte, matching Node). -/
def b64Regroup : List Nat → List Nat
  | a :: b :: c :: d :: rest =>
    ((a <<< 2) ||| (b >>> 4)) :: (((b &&& 15) <<< 4) ||| (c >>> 2)) ::
    (((c &&& 3) <<< 6) ||| d) :: b64Regroup rest
  | [a, b] => [(a <<< 2) ||| (b >>> 4)]
  | [a, b, c] => [(a <<< 2) ||| (b >>> 4), ((b &&& 15) <<< 4) ||| (c >>> 2)]
  | _ => []

/-- Base64 decoding (`Buffer.from(s, 'base64')`): non-alphabet characters are
ignored, groups of 6-bit values are repacked into bytes. -/
def base64Decode (s : String) : List Nat := b64Regroup (s.data.filterMap b64Val)

/-! ### SHA-256 (`crypto.createHash('sha256')`), over byte lists -/

/-- Truncate to a 32-bit word. -/
def w32 (n : Nat) : Nat := n % 4294967296

/-- 32-bit right rotation. -/
def rotr (k x : Nat) : Nat := w32 ((x >>> k) ||| (x <<< (32 - k)))

/-- SHA-256 round constants. -/
def sha256K : List Nat :=
  [1116352408, 1899447441, 3049323471, 3921009573, 961987163, 1508970993,
   2453635748, 2870763221, 3624381080, 310598401, 607225278, 1426881987,
   1925078388, 2162078206, 2614888103, 3248222580, 3835390401, 4022224774,
   264347078, 604807628, 770255983, 1249150122, 1555081692, 1996064986,
   2554220882, 2821834349, 2952996808, 3210313671, 3336571891, 3584528711,
   113926993, 338241895, 666307205, 773529912, 1294757372, 1396182291,
   1695183700, 1986661051, 2177026350, 2456956037, 2730485921, 2820302411,
   3259730800, 3345764771, 3516065817, 3600352804, 4094571909, 275423344,
   430227734, 506948616, 659060556, 883997877, 958139571, 1322822218,
   1537002063, 1747873779, 1955562222, 2024104815, 2227730452, 2361852424,
   2428436474, 2756734187, 3204031479, 3329325298]

/-- SHA-256 initial hash state. -/
def sha256H0 : List Nat :=
  [1779033703, 3144134277, 1013904242, 2773480762,
   1359893119, 2600822924, 528734635, 1541459225]

/-- Message padding: append `0x80`, zeros, and the 64-bit big-endian bit
length, reaching a multiple of 64 bytes. -/
def sha256Pad (msg : List Nat) : List Nat :=
  let len := msg.length
  let bitLen := 8 * len
  let zeros := (64 - ((len + 9) % 64)) % 64
  msg ++ 0x80 :: List.replicate zeros 0 ++
    [w32 (bitLen >>> 56) % 256, (bitLen >>> 48) % 256, (bitLen >>> 40) % 256,
     (bitLen >>> 32) % 256, (bitLen >>> 24) % 256, (bitLen >>> 16) % 256,
     (bitLen >>> 8) % 256, bitLen % 256]

/-- Split the padded message into 64-byte blocks (fuel-driven so that the
kernel can evaluate it). -/
def sha256BlocksAux (fuel : Nat) (l : List Nat) : List (List Nat) :=
  match fuel with
  | 0 => []
  | f + 1 =>
    match l with
    | [] => []
    | _ => l.take 64 :: sha256BlocksAux f (l.drop 64)

def sha256Blocks (l : List Nat) : List (List Nat) := sha256BlocksAux (l.length + 1) l

/-- Big-endian 32-bit words of a 64-byte block. -/
def sha256Words : List Nat → List Nat
  | a :: b :: c :: d :: rest =>
    (((a <<< 24) ||| (b <<< 16)) ||| ((c <<< 8) ||| d)) :: sha256Words rest
  | _ => []

/-- Extend the 16-word schedule by `n` further words. -/
def sha256Extend (n : Nat) (ws : List Nat) : List Nat :=
  match n with
  | 0 => ws
  | m + 1 =>
    let len := ws.length
    let w15 := ws.getD (len - 15) 0
    let w2 := ws.getD (len - 2) 0
    let w16 := ws.getD (len - 16) 0
    let w7 := ws.getD (len - 7) 0
    let s0 := (rotr 7 w15) ^^^ (rotr 18 w15) ^^^ (w15 >>> 3)
    let s1 := (rotr 17 w2) ^^^ (rotr 19 w2) ^^^ (w2 >>> 10)
    sha256Extend m (ws ++ [w32 (w16 + s0 + w7 + s1)])

/-- One compression round. -/
def sha256Round (st : List Nat) (kw : Nat × Nat) : List Nat :=
  match st with
  | [a, b, c, d, e, f, g, h] =>
    let s1 := (rotr 6 e) ^^^ (rotr 11 e) ^^^ (rotr 25 e)
    let ch := (e &&& f) ^^^ ((4294967295 - w32 e) &&& g)
    let temp1 := w32 (h + s1 + ch + kw.1 + kw.2)
    let s0 := (rotr 2 a) ^^^ (rotr 13 a) ^^^ (rotr 22 a)
    let maj := (a &&& b) ^^^ (a &&& c) ^^^ (b &&& c)
    let temp2 := w32 (s0 + maj)
    [w32 (temp1 + temp2), a, b, c, w32 (d + temp1), e, f, g]
  | st => st

/-- Compress one block into the running state. -/
def sha256Compress (h : List Nat) (block : List Nat) : List Nat :=
  let ws := sha256Extend 48 (sha256Words block)
  let st := (sha256K.zip ws).foldl sha256Round h
  (h.zip st).map (fun p => w32 (p.1 + p.2))

/-- SHA-256 digest of a byte list, as a lowercase hex string. -/
def sha256Hex (msg : List Nat) : String :=
  let final := (sha256Blocks (sha256Pad msg)).foldl sha256Compress sha256H0
  String.mk (final.foldr (fun word acc =>
    byteHex ((word >>> 24) % 256) ++ byteHex ((word >>> 16) % 256) ++
    byteHex ((word >>> 8) % 256) ++ byteHex (word % 256) ++ acc) [])

end Backend

namespace Backend

/-! ### JSON values (`JSON.stringify` / `JSON.parse`)

JavaScript objects are ordered key-value maps; `JSON.stringify` serializes
keys in that order.  The services only ever serialize strings, naturals,
arrays and objects, so the model carries exactly those constructors.
`JsonList`/`JsonFields` are inlined list types so that all recursions are
structural (hence kernel-evaluable). -/

def lbrace : Char := Char.ofNat 123
def rbrace : Char := Char.ofNat 125

mutual
inductive Json where
  | str (s : String)
  | num (n : Nat)
  | arr (es : JsonList)
  | obj (fs : JsonFields)
deriving DecidableEq

inductive JsonList where
  | nil
  | cons (hd : Json) (tl : JsonList)
deriving DecidableEq

inductive JsonFields where
  | nil
  | fcons (k : String) (v : Json) (tl : JsonFields)
deriving DecidableEq
end

instance : Inhabited Json := ⟨Json.num 0⟩

/-- Convert an ordinary list of values. -/
def jsonListOf : List Json → JsonList
  | [] => .nil
  | v :: vs => .cons v (jsonListOf vs)

/-- Convert an ordinary list of key-value pairs. -/
def jsonFieldsOf : List (String × Json) → JsonFields
  | [] => .nil
  | (k, v) :: fs => .fcons k v (jsonFieldsOf fs)

/-- First value stored under a key (JavaScript property lookup on the
objects built here, whose keys are unique). -/
def jsonGetF (k : String) : JsonFields → Option Json
  | .nil => none
  | .fcons k2 v tl => if k2 = k then some v else jsonGetF k tl

/-- Number of fields of an object (an induction measure). -/
def fieldsLen : JsonFields → Nat
  | .nil => 0
  | .fcons _ _ tl => fieldsLen tl + 1

/-- Model of `obj.key` access: `none` models `undefined`. -/
def jsonGet (v : Json) (k : String) : Option Json :=
  match v with
  | .obj fs => jsonGetF k fs
  | _ => none

def isDigitC (c : Char) : Bool := decide (48 ≤ c.toNat ∧ c.toNat ≤ 57)

/-- Decimal digit character. -/
def dchar (d : Nat) : Char := Char.ofNat (48 + d)

/-- Decimal rendering of a natural (fuel-driven; `natToChars` supplies
enough fuel). -/
def natChars (fuel n : Nat) : List Char :=
  match fuel with
  | 0 => []
  | f + 1 => if n < 10 then [dchar n] else natChars f (n / 10) ++ [dchar (n % 10)]

/-- Decimal rendering of a natural, as `String(n)` would produce. -/
def natToChars (n : Nat) : List Char := natChars (n + 1) n

/-- Model of `JSON.stringify` escaping of one string character. -/
def escapeChar (c : Char) : List Char :=
  if c = '"' then ['\\', '"']
  else if c = '\\' then ['\\', '\\']
  else if c.toNat = 8 then ['\\', 'b']
  else if c.toNat = 9 then ['\\', 't']
  else if c.toNat = 10 then ['\\', 'n']
  else if c.toNat = 12 then ['\\', 'f']
  else if c.toNat = 13 then ['\\', 'r']
  else if c.toNat < 32 then
    ['\\', 'u', '0', '0', hexChar (c.toNat >>> 4), hexChar (c.toNat % 16)]
  else [c]

/-- Escaped body of a string literal, including the closing quote. -/
def escBody : List Char → List Char
  | [] => ['"']
  | c :: cs => escapeChar c ++ escBody cs

/-- A JSON string literal. -/
def strLit (s : String) : List Char := '"' :: escBody s.data

mutual
def stringifyC : Json → List Char
  | .str s => strLit s
  | .num n => natToChars n
  | .arr es => '[' :: stringifyL es
  | .obj fs => lbrace :: stringifyF fs

def stringifyL : JsonList → List Char
  | .nil => [']']
  | .cons e .nil => stringifyC e ++ [']']
  | .cons e (.cons e2 tl) => stringifyC e ++ ',' :: stringifyL (.cons e2 tl)

def stringifyF : JsonFields → List Char
  | .nil => [rbrace]
  | .fcons k v .nil => strLit k ++ ':' :: stringifyC v ++ [rbrace]
  | .fcons k v (.fcons k2 v2 tl) =>
    strLit k ++ ':' :: stringifyC v ++ ',' :: stringifyF (.fcons k2 v2 tl)
end

/-- Model of `JSON.stringify` on the modelled value subset. -/
def jsonStringify (v : Json) : String := String.mk (stringifyC v)

/-- Value of a hex digit (either case), as `JSON.parse` reads `\uXXXX`. -/
def hexVal (c : Char) : Nat :=
  if 48 ≤ c.toNat ∧ c.toNat ≤ 57 then c.toNat - 48
  else if 97 ≤ c.toNat ∧ c.toNat ≤ 102 then c.toNat - 87
  else if 65 ≤ c.toNat ∧ c.toNat ≤ 70 then c.toNat - 55
  else 0

/-- Decoding of a single-character escape. -/
def escDecode (e : Char) : Option Char :=
  if e = '"' then some '"'
  else if e = '\\' then some '\\'
  else if e = '/' then some '/'
  else if e = 'b' then some (Char.ofNat 8)
  else if e = 'f' then some (Char.ofNat 12)
  else if e = 'n' then some (Char.ofNat 10)
  else if e = 'r' then some (Char.ofNat 13)
  else if e = 't' then some (Char.ofNat 9)
  else none

/-- Parse a string-literal body after the opening quote, returning the
decoded characters and the remainder after the closing quote. -/
def parseStrBody : List Char → Option (List Char × List Char)
  | [] => none
  | c :: cs =>
    if c = '"' then some ([], cs)
    else if c = '\\' then
      match cs with
      | [] => none
      | e :: cs1 =>
        if e = 'u' then
          match cs1 with
          | h1 :: h2 :: h3 :: h4 :: cs2 =>
            (parseStrBody cs2).map (fun p =>
              (Char.ofNat (hexVal h1 * 4096 + hexVal h2 * 256 +
                hexVal h3 * 16 + hexVal h4) :: p.1, p.2))
          | _ => none
        else
          match escDecode e with
          | some d => (parseStrBody cs1).map (fun p => (d :: p.1, p.2))
          | none => none
    else if c.toNat < 32 then none
    else (parseStrBody cs).map (fun p => (c :: p.1, p.2))

/-- Value of a nonempty digit string. -/
def digitsToNat (ds : List Char) : Nat := ds.foldl (fun a c => a * 10 + (c.toNat - 48)) 0

/-- Parse a natural number literal. -/
def parseNatC (cs : List Char) : Option (Nat × List Char) :=
  let ds := cs.takeWhile isDigitC
  if ds.isEmpty then none else some (digitsToNat ds, cs.dropWhile isDigitC)

/-- Delimiter condition: the characters following a serialized value never
begin with a digit. -/
def restOK : List Char → Bool
  | [] => true
  | c :: _ => !(isDigitC c)

mutual
def parseV : Nat → List Char → Option (Json × List Char)
  | 0, _ => none
  | f + 1, cs =>
    match cs with
    | [] => none
    | c :: cs1 =>
      if c = '"' then (parseStrBody cs1).map (fun p => (Json.str (String.mk p.1), p.2))
      else if c = '[' then (parseArr f cs1).map (fun p => (Json.arr p.1, p.2))
      else if c = lbrace then (parseObj f cs1).map (fun p => (Json.obj p.1, p.2))
      else if isDigitC c then (parseNatC (c :: cs1)).map (fun p => (Json.num p.1, p.2))
      else none

def parseArr : Nat → List Char → Option (JsonList × List Char)
  | 0, _ => none
  | f + 1, cs =>
    match cs with
    | [] => none
    | c :: cs1 =>
      if c = ']' then some (.nil, cs1)
      else
        match parseV f (c :: cs1) with
        | some (v, r1) =>
          match r1 with
          | [] => none
          | c1 :: r2 =>
            if c1 = ',' then (parseArr f r2).map (fun p => (JsonList.cons v p.1, p.2))
            else if c1 = ']' then some (JsonList.cons v .nil, r2)
            else none
        | none => none

def parseObj : Nat → List Char → Option (JsonFields × List Char)
  | 0, _ => none
  | f + 1, cs =>
    match cs with
    | [] => none
    | c :: cs1 =>
      if c = rbrace then some (.nil, cs1)
      else if c = '"' then
        match parseStrBody cs1 with
        | some (kcs, r1) =>
          match r1 with
          | [] => none
          | c1 :: r2 =>
            if c1 = ':' then
              match parseV f r2 with
              | some (v, r3) =>
                match r3 with
                | [] => none
                | c2 :: r4 =>
                  if c2 = ',' then
                    (parseObj f r4).map (fun p =>
                      (JsonFields.fcons (String.mk kcs) v p.1, p.2))
                  else if c2 = rbrace then
                    some (JsonFields.fcons (String.mk kcs) v .nil, r4)
                  else none
              | none => none
            else none
        | none => none
      else none
end

/-- Model of `JSON.parse`, on the grammar `JSON.stringify` emits: the whole input
must be consumed; `none` models a thrown `SyntaxError`. -/
def jsonParse (s : String) : Option Json :=
  match parseV (s.data.length + 1) s.data with
  | some (v, []) => some v
  | _ => none

end Backend

namespace Backend

/-- Decimal rendering of a natural as a string (template interpolation). -/
def natStr (n : Nat) : String := String.mk (natToChars n)

/-! ### Model of `eddsaService.js`

The tweetnacl Ed25519 primitives are external library code; the services
only depend on their interface: `nacl.sign.detached` and
`nacl.sign.keyPair.fromSecretKey` throw `bad secret key size` unless the
secret key is 64 bytes, `nacl.sign.detached.verify` throws
`bad signature size` / `bad public key size` unless the signature is 64
and the public key 32 bytes, and otherwise they compute pure functions of
their byte inputs.  Those pure functions are the fields of `Ed25519Core`;
everything the claims assert lives in the services' own control flow. -/

structure Ed25519Core where
  signCore : List Nat → List Nat → List Nat
  verifyCore : List Nat → List Nat → List Nat → Bool
  derivePub : List Nat → List Nat

/-- Result of `EdDSAService.sign` (the constant `algorithm` field and the
wall-clock `timestamp` metadata are omitted from the model). -/
structure SignResult where
  signature : String
  message : String
  messageHash : String
deriving DecidableEq, Inhabited

namespace EdDSA

/-- Model of `EdDSAService.hashDocument`: SHA-256 hex digest of the content. -/
def hashDocument (content : String) : String := sha256Hex (utf8Bytes content)

/-- Model of `EdDSAService.sign`: decode the base64 private key, sign the UTF-8
message bytes, re-encode; tweetnacl rejects secret keys that are not
64 bytes and the service rethrows with a `Failed to create signature`
prefix. -/
def sign (core : Ed25519Core) (message privateKey : String) : Except String SignResult :=
  let messageBytes := utf8Bytes message
  let privateKeyBytes := base64Decode privateKey
  if privateKeyBytes.length = 64 then
    .ok { signature := base64Encode (core.signCore messageBytes privateKeyBytes),
          message := message, messageHash := hashDocument message }
  else .error "Failed to create signature: bad secret key size"

/-- Model of `EdDSAService.verify`: tweetnacl's length checks throw, and the
service's catch block rethrows with a `Failed to verify signature`
prefix; only well-formed inputs reach the core verification. -/
def verify (core : Ed25519Core) (signature message publicKey : String) : Except String Bool :=
  let signatureBytes := base64Decode signature
  let messageBytes := utf8Bytes message
  let publicKeyBytes := base64Decode publicKey
  if signatureBytes.length ≠ 64 then .error "Failed to verify signature: bad signature size"
  else if publicKeyBytes.length ≠ 32 then .error "Failed to verify signature: bad public key size"
  else .ok (core.verifyCore messageBytes signatureBytes publicKeyBytes)

/-- Model of `EdDSAService.getPublicKeyFromPrivate` via
`nacl.sign.keyPair.fromSecretKey`. -/
def getPublicKeyFromPrivate (core : Ed25519Core) (privateKey : String) : Except String String :=
  let privateKeyBytes := base64Decode privateKey
  if privateKeyBytes.length = 64 then .ok (base64Encode (core.derivePub privateKeyBytes))
  else .error "Failed to extract public key: bad secret key size"

/-- Model of `EdDSAService.validateKeyPair`: sign a fixed test message and verify
it; any thrown error is absorbed into `false`. -/
def validateKeyPair (core : Ed25519Core) (publicKey privateKey : String) : Bool :=
  match sign core "test-message-for-validation" privateKey with
  | .error _ => false
  | .ok signature =>
    match verify core signature.signature "test-message-for-validation" publicKey with
    | .error _ => false
    | .ok b => b

end EdDSA

/-- JavaScript truthiness on the modelled JSON values. -/
def jsTruthy : Json → Bool
  | .str s => s ≠ ""
  | .num n => n ≠ 0
  | .arr _ => true
  | .obj _ => true

/-- Model of `document.content || document`: property access on the document value. -/
def docContent (document : Json) : Json :=
  match document with
  | .obj fs =>
    match jsonGetF "content" fs with
    | some v => if jsTruthy v then v else document
    | none => document
  | _ => document

/-- The document hash both services compute:
`hashDocument(JSON.stringify(document.content || document))`. -/
def docHashOf (document : Json) : String :=
  EdDSA.hashDocument (jsonStringify (docContent document))

/-! ### Model of `multiSignatureService.js` -/

/-- Model of `MULTISIG_CONFIG` (`config/config.js`). -/
def MIN_SIGNERS : Nat := 2
def MAX_SIGNERS : Nat := 5
def DEFAULT_THRESHOLD : Nat := 2

/-- Caller-supplied signer info (`signerInfo`), spread into the stored
signature's `signer` object. -/
structure SignerInfo where
  name : String
  email : String
deriving DecidableEq, Inhabited

/-- The `signer` object stored with a signature:
`{...signerInfo, role, publicKey}`. -/
structure SigSigner where
  name : String
  email : String
  role : String
  publicKey : String
deriving DecidableEq, Inhabited

/-- A stored multi-signature entry. -/
structure MSignature where
  signatureId : String
  signature : String
  signer : SigSigner
  signedAt : Nat
  documentHash : String
  valid : Bool
deriving DecidableEq, Inhabited

/-- A required-signer entry of a session. -/
structure RequiredSigner where
  role : String
  name : String
  email : String
  required : Bool
  status : String
  signedAt : Option Nat
deriving DecidableEq, Inhabited

/-- The session's `metadata` counters. -/
structure SessionMeta where
  totalSigners : Nat
  signedCount : Nat
  pendingCount : Nat
deriving DecidableEq, Inhabited

/-- A multi-signature session record.  Timestamps are abstract instants. -/
structure Session where
  sessionId : String
  documentId : String
  documentHash : String
  requiredSigners : List RequiredSigner
  threshold : Nat
  signatures : List MSignature
  status : String
  createdAt : Nat
  expiresAt : Nat
  metadata : SessionMeta
  completedAt : Option Nat
  lastUpdated : Option Nat
deriving DecidableEq, Inhabited

/-- An entry of a `SignerSpec` list handed to session initialization. -/
structure SignerSpec where
  role : String
  name : String
  email : String
  required : Option Bool
deriving DecidableEq, Inhabited

namespace MultiSig

/-- Model of `MultiSignatureService.initializeMultiSigSession`.  `sessionId` and
`fallbackDocId` stand for the two `crypto.randomUUID()` draws; `now` is
the current instant. -/
def initializeMultiSigSession (sessionId fallbackDocId : String) (now : Nat)
    (document : Json) (requiredSigners : List SignerSpec) (threshold : Option Nat) : Session :=
  let documentHash := docHashOf document
  let documentId :=
    match jsonGet document "id" with
    | some (.str s) => if s ≠ "" then s else fallbackDocId
    | _ => fallbackDocId
  { sessionId := sessionId
    documentId := documentId
    documentHash := documentHash
    requiredSigners := requiredSigners.map (fun s =>
      { role := s.role, name := s.name, email := s.email,
        required := s.required ≠ some false, status := "pending", signedAt := none })
    threshold :=
      match threshold with
      | some t => if t ≠ 0 then t else min DEFAULT_THRESHOLD requiredSigners.length
      | none => min DEFAULT_THRESHOLD requiredSigners.length
    signatures := []
    status := "pending"
    createdAt := now
    expiresAt := now + 7 * 24 * 60 * 60 * 1000
    metadata := { totalSigners := requiredSigners.length, signedCount := 0,
                  pendingCount := requiredSigners.length }
    completedAt := none
    lastUpdated := none }

/-- The `Failed to add signature` rethrow wrapper of `addSignature`. -/
def wrapAdd (msg : String) : String := "Failed to add signature: " ++ msg

/-- Model of `requiredSigner.status = 'signed'` mutates the entry found by
`Array.prototype.find`, i.e. the first entry with the given role. -/
def markSignedFirst (role : String) (now : Nat) : List RequiredSigner → List RequiredSigner
  | [] => []
  | s :: rest =>
    if s.role = role then { s with status := "signed", signedAt := some now } :: rest
    else s :: markSignedFirst role now rest

/-- Model of `MultiSignatureService.addSignature`.  All of the source's throws
happen before its first mutation of the session, so an `.error` result
corresponds exactly to an unchanged session; `uuid` stands for the
`crypto.randomUUID()` draw for the signature id, `now` for the current
instant (the source's `new Date()` uses). -/
def addSignature (core : Ed25519Core) (now : Nat) (uuid : String) (session : Session)
    (signerRole privateKey : String) (signerInfo : SignerInfo) : Except String Session :=
  if session.status = "completed" then
    .error (wrapAdd "Multi-signature session is already completed")
  else if session.expiresAt < now then
    .error (wrapAdd "Multi-signature session has expired")
  else
    match session.requiredSigners.find? (fun s => s.role = signerRole) with
    | none => .error (wrapAdd ("Signer role '" ++ signerRole ++ "' is not required for this document"))
    | some _ =>
      match session.signatures.find? (fun s => s.signer.role = signerRole) with
      | some _ => .error (wrapAdd ("Signer with role '" ++ signerRole ++ "' has already signed this document"))
      | none =>
        match EdDSA.sign core session.documentHash privateKey with
        | .error e => .error (wrapAdd e)
        | .ok signatureData =>
          match EdDSA.getPublicKeyFromPrivate core privateKey with
          | .error e => .error (wrapAdd e)
          | .ok publicKey =>
            match EdDSA.verify core signatureData.signature session.documentHash publicKey with
            | .error e => .error (wrapAdd e)
            | .ok isValid =>
              if isValid then
                let newSignature : MSignature :=
                  { signatureId := uuid, signature := signatureData.signature,
                    signer := { name := signerInfo.name, email := signerInfo.email,
                                role := signerRole, publicKey := publicKey },
                    signedAt := now, documentHash := session.documentHash, valid := true }
                let signatures2 := session.signatures ++ [newSignature]
                let requiredSigners2 := markSignedFirst signerRole now session.requiredSigners
                let metadata2 : SessionMeta :=
                  { totalSigners := session.metadata.totalSigners,
                    signedCount := signatures2.length,
                    pendingCount := (requiredSigners2.filter (fun s => s.status = "pending")).length }
                let base := { session with
                  signatures := signatures2, requiredSigners := requiredSigners2,
                  metadata := metadata2, lastUpdated := some now }
                if session.threshold ≤ signatures2.length then
                  .ok { base with status := "completed", completedAt := some now }
                else .ok base
              else .error (wrapAdd "Generated signature is invalid")

/-- One entry of `verifyMultiSignature`'s per-signature results (the
error branch of the source omits `signedAt`, hence the `Option`). -/
structure SigVerifyResult where
  signatureId : String
  signer : SigSigner
  valid : Bool
  signedAt : Option Nat
  reason : String
deriving DecidableEq, Inhabited

/-- Model of `MultiSignatureService.verifyMultiSignature`'s result (fields the
hash-mismatch branch does not produce are `Option`s). -/
structure MultiVerifyResult where
  valid : Bool
  reason : String
  documentHashMatch : Bool
  signatureResults : List SigVerifyResult
  threshold : Option Nat
  totalSignatures : Option Nat
  validSignatures : Option Nat
  sessionStatus : Option String
deriving DecidableEq, Inhabited

/-- The per-signature verification step inside `verifyMultiSignature`'s
loop: its own try/catch absorbs thrown verification errors into an
individual invalid result. -/
def verifyOne (core : Ed25519Core) (documentHash : String) (sig : MSignature) : SigVerifyResult :=
  match EdDSA.verify core sig.signature documentHash sig.signer.publicKey with
  | .ok b =>
    { signatureId := sig.signatureId, signer := sig.signer, valid := b,
      signedAt := some sig.signedAt,
      reason := if b then "Valid signature" else "Invalid signature" }
  | .error e =>
    { signatureId := sig.signatureId, signer := sig.signer, valid := false,
      signedAt := none, reason := "Verification error: " ++ e }

/-- Model of `MultiSignatureService.verifyMultiSignature`. -/
def verifyMultiSignature (core : Ed25519Core) (session : Session) (document : Json) : MultiVerifyResult :=
  let documentHash := docHashOf document
  if documentHash ≠ session.documentHash then
    { valid := false, reason := "Document has been modified after signing",
      documentHashMatch := false, signatureResults := [],
      threshold := none, totalSignatures := none, validSignatures := none,
      sessionStatus := none }
  else
    let results := session.signatures.map (verifyOne core session.documentHash)
    let validSignatures := (results.filter (fun r => r.valid)).length
    let isThresholdMet := session.threshold ≤ validSignatures
    { valid := isThresholdMet
      documentHashMatch := true
      threshold := some session.threshold
      totalSignatures := some session.signatures.length
      validSignatures := some validSignatures
      signatureResults := results
      sessionStatus := some session.status
      reason :=
        if isThresholdMet then
          "Valid multi-signature with " ++ natStr validSignatures ++ "/" ++
            natStr session.threshold ++ " required signatures"
        else
          "Insufficient valid signatures: " ++ natStr validSignatures ++ "/" ++
            natStr session.threshold }

/-- Model of `validateMultiSigConfig`'s result object. -/
structure ConfigValidation where
  valid : Bool
  errors : List String
deriving DecidableEq, Inhabited

/-- Model of `Array.prototype.indexOf` on a role list (all lookups in the source
are for elements of the list itself, so the absent case never arises). -/
def firstIdx (r : String) : List String → Nat
  | [] => 0
  | x :: xs => if x = r then 0 else firstIdx r xs + 1

/-- Model of `roles.filter((role, index) => roles.indexOf(role) !== index)`. -/
def duplicateRoles (roles : List String) : List String :=
  (roles.enum.filter (fun p => firstIdx p.2 roles ≠ p.1)).map (fun p => p.2)

/-- Model of `MultiSignatureService.validateMultiSigConfig`: all rule checks run
and each violated rule appends its message. -/
def validateMultiSigConfig (signers : List SignerSpec) (threshold : Nat) : ConfigValidation :=
  let roles := signers.map (fun s => s.role)
  let dups := duplicateRoles roles
  let errors :=
    (if signers.length = 0 then ["At least one signer is required"] else []) ++
    (if MAX_SIGNERS < signers.length then ["Maximum " ++ natStr MAX_SIGNERS ++ " signers allowed"] else []) ++
    (if threshold < MIN_SIGNERS then ["Minimum threshold is " ++ natStr MIN_SIGNERS] else []) ++
    (if signers.length < threshold then ["Threshold cannot exceed number of signers"] else []) ++
    (if dups.isEmpty then [] else ["Duplicate signer roles found: " ++ String.intercalate ", " dups])
  { valid := errors.isEmpty, errors := errors }

end MultiSig

end Backend

namespace Backend

/-! ### Model of `qrCodeService.js`

Only the data path is modelled: the QR image rendering (`QRCode.toDataURL`)
and the out-of-band verification store write are presentation/storage side
effects outside the payload logic the claims are about. -/

/-- Document metadata handed to QR generation; absent properties are
`none` and, being `undefined`, are dropped by `JSON.stringify`. -/
structure DocMeta where
  id : Option String
  title : Option String
  dtype : Option String
  issuer : Option String
  recipient : Option String
  issueDate : Option String
deriving DecidableEq, Inhabited

/-- Model of `signatureData.signer` as accessed by `generateDocumentQR`
(`signer?.role`, `signer?.name`, `signer?.publicKey`). -/
structure SignerRef where
  role : Option String
  name : Option String
  publicKey : Option String
deriving DecidableEq, Inhabited

/-- The duck-typed `signatureData` argument of `generateDocumentQR`:
single-signature artifacts carry `signature`/`signer`, aggregated ones
carry `type`/`signatures` (raw JSON entries) and possibly `signers`. -/
structure SignatureData where
  dataType : Option String
  algorithm : Option String
  documentHash : String
  signature : Option String
  signatures : Option (List Json)
  signer : Option SignerRef
  signers : Option (List Json)
deriving DecidableEq, Inhabited

/-- Object literal construction: `none` values are `undefined` properties,
which `JSON.stringify` omits. -/
def objOf (l : List (String × Option Json)) : Json :=
  .obj (jsonFieldsOf (l.filterMap (fun p =>
    match p.2 with
    | some v => some (p.1, v)
    | none => none)))

/-- Model of `a || b` on an optional string against a default. -/
def jsStrOr (o : Option String) (d : String) : String :=
  match o with
  | some s => if s = "" then d else s
  | none => d

namespace QR

/-- The `verificationPayload` object literal of
`QRCodeService.generateDocumentQR`. -/
def verificationPayload (signatureData : SignatureData) (meta : DocMeta) (nowIso : String) : Json :=
  objOf [
    ("type", some (.str "document_verification")),
    ("version", some (.str "1.0")),
    ("documentId", meta.id.map (fun s => .str s)),
    ("documentHash", some (.str signatureData.documentHash)),
    ("signatureType", some (.str (jsStrOr signatureData.dataType "single"))),
    ("timestamp", some (.str nowIso)),
    ("metadata", some (objOf [
      ("title", meta.title.map (fun s => .str s)),
      ("type", meta.dtype.map (fun s => .str s)),
      ("issuer", meta.issuer.map (fun s => .str s)),
      ("recipient", meta.recipient.map (fun s => .str s)),
      ("issueDate", meta.issueDate.map (fun s => .str s))])),
    ("signature", some (objOf [
      ("algorithm", signatureData.algorithm.map (fun s => .str s)),
      ("data",
        match signatureData.signatures with
        | some sigs => some (.arr (jsonListOf sigs))
        | none => signatureData.signature.map (fun s => .str s)),
      ("signers", some (
        match signatureData.signers with
        | some l => .arr (jsonListOf l)
        | none => .arr (jsonListOf [objOf [
            ("role", (signatureData.signer.bind (fun s => s.role)).map (fun s => .str s)),
            ("name", (signatureData.signer.bind (fun s => s.name)).map (fun s => .str s)),
            ("publicKey", (signatureData.signer.bind (fun s => s.publicKey)).map (fun s => .str s))]])))]))]

/-- The `quickVerify` fingerprint of the reference variant. -/
def quickVerifyJson (signatureData : SignatureData) : Json :=
  objOf [
    ("documentHash", some (.str (signatureData.documentHash.take 16))),
    ("signatureCount", some (.num
      (match signatureData.signatures with
       | some sigs => sigs.length
       | none => 1)))]

/-- The reference (`verification_url`) QR object. -/
def referenceJson (signatureData : SignatureData) (meta : DocMeta) (uuid : String) : Json :=
  objOf [
    ("type", some (.str "verification_url")),
    ("verificationId", some (.str uuid)),
    ("url", some (.str ("/api/verification/" ++ uuid))),
    ("documentId", meta.id.map (fun s => .str s)),
    ("quickVerify", some (quickVerifyJson signatureData))]

/-- Result of `generateDocumentQR` (the rendered `qrImage` and the store
write of the full payload are omitted from the model). -/
structure QRGenResult where
  qrData : String
  payload : Json
  size : Nat
  compressed : Bool
deriving DecidableEq, Inhabited

/-- Model of `QRCodeService.generateDocumentQR`: embed the payload unless its
serialization exceeds 2000 characters, in which case switch to the
reference variant; `uuid` stands for the `crypto.randomUUID()`
verification id and `nowIso` for the timestamp string. -/
def generateDocumentQR (signatureData : SignatureData) (meta : DocMeta) (uuid nowIso : String) : QRGenResult :=
  let payload := verificationPayload signatureData meta nowIso
  let payloadString := jsonStringify payload
  if 2000 < payloadString.length then
    { qrData := jsonStringify (referenceJson signatureData meta uuid),
      payload := payload, size := payloadString.length, compressed := true }
  else
    { qrData := payloadString, payload := payload,
      size := payloadString.length, compressed := false }

/-- Model of `QRCodeService.parseQRData`'s classified result. -/
structure ParsedQR where
  ptype : String
  verificationId : Option Json
  url : Option Json
  documentId : Option Json
  quickVerify : Option Json
  payload : Option Json
deriving DecidableEq, Inhabited

/-- Model of `QRCodeService.parseQRData`: `JSON.parse` then dispatch on the `type`
tag; parse failures and unknown tags are thrown (wrapped) errors. -/
def parseQRData (qrData : String) : Except String ParsedQR :=
  match jsonParse qrData with
  | none => .error "Failed to parse QR data: Unexpected token"
  | some parsedData =>
    match jsonGet parsedData "type" with
    | some (.str t) =>
      if t = "verification_url" then
        .ok { ptype := "url_verification",
              verificationId := jsonGet parsedData "verificationId",
              url := jsonGet parsedData "url",
              documentId := jsonGet parsedData "documentId",
              quickVerify := jsonGet parsedData "quickVerify",
              payload := none }
      else if t = "document_verification" then
        .ok { ptype := "embedded_verification",
              verificationId := none, url := none, documentId := none,
              quickVerify := none, payload := some parsedData }
      else .error "Failed to parse QR data: Unknown QR code format"
    | _ => .error "Failed to parse QR data: Unknown QR code format"

end QR

end Backend

deriving instance DecidableEq for Except

namespace Backend

/-! ### Concrete evaluation fixtures

A concrete `Ed25519Core` instance and small concrete sessions, documents
and artifacts, used to evaluate the embedded services on closed inputs. -/

/-- A concrete core for closed evaluations: the services' control flow
under scrutiny never depends on the mathematical content of the
primitives, only on output shapes. -/
def testCore : Ed25519Core :=
  { signCore := fun _ _ => List.replicate 64 0,
    verifyCore := fun _ _ _ => true,
    derivePub := fun _ => List.replicate 32 0 }

/-- A structurally well-formed (64-byte) base64 secret key. -/
def testSk : String := base64Encode (List.replicate 64 0)

/-- A structurally well-formed (32-byte) base64 public key. -/
def testPk : String := base64Encode (List.replicate 32 0)

/-- A fresh pending session: threshold 2, three required signers. -/
def w0 : Session :=
  { sessionId := "s-1", documentId := "d-1", documentHash := "h",
    requiredSigners :=
      [ { role := "dosen", name := "D", email := "d@x", required := true, status := "pending", signedAt := none },
        { role := "kaprodi", name := "K", email := "k@x", required := true, status := "pending", signedAt := none },
        { role := "dekan", name := "E", email := "e@x", required := true, status := "pending", signedAt := none } ],
    threshold := 2, signatures := [], status := "pending", createdAt := 0, expiresAt := 1000,
    metadata := { totalSigners := 3, signedCount := 0, pendingCount := 3 },
    completedAt := none, lastUpdated := none }

/-- Model of `w0` after the first accepted signature (dosen). -/
def wS1 : Session :=
  match MultiSig.addSignature testCore 1 "u-1" w0 "dosen" testSk { name := "D", email := "d@x" } with
  | .ok s => s
  | .error _ => default

/-- Model of `wS1` after the second accepted signature (kaprodi). -/
def wS2 : Session :=
  match MultiSig.addSignature testCore 2 "u-2" wS1 "kaprodi" testSk { name := "K", email := "k@x" } with
  | .ok s => s
  | .error _ => default

/-- Like `w0` but with threshold 3, so one signature leaves it pending. -/
def wA : Session := { w0 with threshold := 3 }

/-- Model of `wA` after dosen signed: still pending, dosen's signature stored. -/
def wA1 : Session :=
  match MultiSig.addSignature testCore 1 "u-a" wA "dosen" testSk { name := "D", email := "d@x" } with
  | .ok s => s
  | .error _ => default

/-- A session record carrying the status `cancelled`. -/
def wCancelled : Session := { w0 with status := "cancelled" }

/-- A pending session whose expiry instant has passed. -/
def wExpired : Session := { w0 with expiresAt := 0 }

/-- A small document value with an `id` and string content. -/
def docA : Json := Json.obj (jsonFieldsOf [("id", Json.str "d-1"), ("content", Json.str "c")])

/-- A document whose content object lists key `a` before key `b`. -/
def docKeysAB : Json :=
  Json.obj (jsonFieldsOf [("content", Json.obj (jsonFieldsOf [("a", Json.num 1), ("b", Json.num 2)]))])

/-- The same logical document with the content keys in the other order. -/
def docKeysBA : Json :=
  Json.obj (jsonFieldsOf [("content", Json.obj (jsonFieldsOf [("b", Json.num 2), ("a", Json.num 1)]))])

/-- The signature object produced by signing the test message with
`testSk` under `testCore`. -/
def wSd : SignResult :=
  match EdDSA.sign testCore "test-message-for-validation" testSk with
  | .ok r => r
  | .error _ => default

/-- A 2100-character leaf string, kept behind a name so that proofs can
reason about its length without expanding it. -/
def bigName : String := String.mk (List.replicate 2100 'x')

/-- An aggregated artifact big enough to force the reference QR variant. -/
def sigDataBig : SignatureData :=
  { dataType := some "multi-signature", algorithm := some "EdDSA-Multi",
    documentHash := "0123456789abcdef0123456789abcdef0123456789abcdef0123456789abcdef",
    signature := none,
    signatures := some [Json.str bigName],
    signer := none, signers := none }

/-- A small document metadata record. -/
def metaA : DocMeta :=
  { id := some "d-1", title := some "T", dtype := some "ijazah",
    issuer := some "U", recipient := some "R", issueDate := some "2024-01-01" }

/-- A signer spec for the `dosen` role. -/
def specD : SignerSpec := { role := "dosen", name := "D", email := "d@x", required := none }

end Backend


/-! ## Supporting lemmas -/

namespace Backend

theorem stringMk_data (s : String) : String.mk s.data = s := by cases s; rfl

theorem hexVal_hexChar : ∀ d, d < 16 → hexVal (hexChar d) = d := by decide

theorem dchar_digit : ∀ d, d < 10 → isDigitC (dchar d) = true := by decide

theorem dchar_val : ∀ d, d < 10 → (dchar d).toNat - 48 = d := by decide

theorem escBody_parse (cs : List Char) (rest : List Char) :
    parseStrBody (escBody cs ++ rest) = some (cs, rest) := by
  induction cs with
  | nil =>
    show parseStrBody ('"' :: rest) = some ([], rest)
    rw [parseStrBody.eq_def]; simp
  | cons c cs ih =>
    by_cases h1 : c = '"'
    · subst h1
      show parseStrBody ('\\' :: '"' :: (escBody cs ++ rest)) = _
      rw [parseStrBody.eq_def]; simp [escDecode, ih]
    · by_cases h2 : c = '\\'
      · subst h2
        show parseStrBody ('\\' :: '\\' :: (escBody cs ++ rest)) = _
        rw [parseStrBody.eq_def]; simp [escDecode, ih]
      · by_cases h3 : c.toNat = 8
        · have hc : Char.ofNat 8 = c := by rw [← h3, Char.ofNat_toNat]
          have hb : escapeChar c = ['\\', 'b'] := by simp [escapeChar, h1, h2, h3]
          show parseStrBody (escapeChar c ++ escBody cs ++ rest) = _
          rw [hb]
          rw [parseStrBody.eq_def]; simp [escDecode, ih]; exact hc
        · by_cases h4 : c.toNat = 9
          · have hc : Char.ofNat 9 = c := by rw [← h4, Char.ofNat_toNat]
            have hb : escapeChar c = ['\\', 't'] := by simp [escapeChar, h1, h2, h3, h4]
            show parseStrBody (escapeChar c ++ escBody cs ++ rest) = _
            rw [hb]
            rw [parseStrBody.eq_def]; simp [escDecode, ih]; exact hc
          · by_cases h5 : c.toNat = 10
            · have hc : Char.ofNat 10 = c := by rw [← h5, Char.ofNat_toNat]
              have hb : escapeChar c = ['\\', 'n'] := by simp [escapeChar, h1, h2, h3, h4, h5]
              show parseStrBody (escapeChar c ++ escBody cs ++ rest) = _
              rw [hb]
              rw [parseStrBody.eq_def]; simp [escDecode, ih]; exact hc
            · by_cases h6 : c.toNat = 12
              · have hc : Char.ofNat 12 = c := by rw [← h6, Char.ofNat_toNat]
                have hb : escapeChar c = ['\\', 'f'] := by simp [escapeChar, h1, h2, h3, h4, h5, h6]
                show parseStrBody (escapeChar c ++ escBody cs ++ rest) = _
                rw [hb]
                rw [parseStrBody.eq_def]; simp [escDecode, ih]; exact hc
              · by_cases h7 : c.toNat = 13
                · have hc : Char.ofNat 13 = c := by rw [← h7, Char.ofNat_toNat]
                  have hb : escapeChar c = ['\\', 'r'] := by simp [escapeChar, h1, h2, h3, h4, h5, h6, h7]
                  show parseStrBody (escapeChar c ++ escBody cs ++ rest) = _
                  rw [hb]
                  rw [parseStrBody.eq_def]; simp [escDecode, ih]; exact hc
                · by_cases h8 : c.toNat < 32
                  · have hb : escapeChar c =
                        ['\\', 'u', '0', '0', hexChar (c.toNat >>> 4), hexChar (c.toNat % 16)] := by
                      simp [escapeChar, h1, h2, h3, h4, h5, h6, h7, h8]
                    have hhi : c.toNat >>> 4 < 16 := by
                      rw [Nat.shiftRight_eq_div_pow]; omega
                    have hlo : c.toNat % 16 < 16 := Nat.mod_lt _ (by omega)
                    have hval : hexVal '0' * 4096 + hexVal '0' * 256 +
                        hexVal (hexChar (c.toNat >>> 4)) * 16 + hexVal (hexChar (c.toNat % 16)) = c.toNat := by
                      rw [hexVal_hexChar _ hhi, hexVal_hexChar _ hlo]
                      rw [Nat.shiftRight_eq_div_pow]
                      have := Nat.div_add_mod c.toNat 16
                      simp [show hexVal '0' = 0 from by decide]
                      omega
                    show parseStrBody (escapeChar c ++ escBody cs ++ rest) = _
                    rw [hb]
                    rw [parseStrBody.eq_def]; simp [ih, hval, Char.ofNat_toNat]
                  · have hb : escapeChar c = [c] := by
                      simp [escapeChar, h1, h2, h3, h4, h5, h6, h7, h8]
                    show parseStrBody (escapeChar c ++ escBody cs ++ rest) = _
                    rw [hb]
                    rw [parseStrBody.eq_def]; simp [h1, h2, h8, ih]

end Backend

namespace Backend

theorem natChars_digits : ∀ fuel n c, c ∈ natChars fuel n → isDigitC c = true := by
  intro fuel
  induction fuel with
  | zero => intro n c hc; simp [natChars] at hc
  | succ f ih =>
    intro n c hc
    rw [natChars.eq_def] at hc
    by_cases h : n < 10
    · simp [h] at hc
      subst hc
      exact dchar_digit _ h
    · simp [h] at hc
      rcases hc with hc | hc
      · exact ih _ _ hc
      · subst hc
        exact dchar_digit _ (Nat.mod_lt _ (by omega))

theorem natChars_head : ∀ fuel n, ∃ d t, natChars (fuel + 1) n = dchar d :: t ∧ d < 10 := by
  intro fuel
  induction fuel with
  | zero =>
    intro n
    by_cases h : n < 10
    · exact ⟨n, [], by simp [natChars, h], h⟩
    · refine ⟨n % 10, [], ?_, Nat.mod_lt _ (by omega)⟩
      simp [natChars, h]
  | succ f ih =>
    intro n
    by_cases h : n < 10
    · exact ⟨n, [], by rw [natChars.eq_def]; simp [h], h⟩
    · obtain ⟨d, t, heq, hd⟩ := ih (n / 10)
      refine ⟨d, t ++ [dchar (n % 10)], ?_, hd⟩
      rw [natChars.eq_def]
      simp [h, heq]

theorem digitsToNat_append_digit (ds : List Char) (c : Char) :
    digitsToNat (ds ++ [c]) = digitsToNat ds * 10 + (c.toNat - 48) := by
  simp [digitsToNat, List.foldl_append]

theorem natChars_eval : ∀ fuel n, n < fuel → digitsToNat (natChars fuel n) = n := by
  intro fuel
  induction fuel with
  | zero => intro n h; omega
  | succ f ih =>
    intro n h
    rw [natChars.eq_def]
    by_cases h10 : n < 10
    · have : digitsToNat [dchar n] = (dchar n).toNat - 48 := by simp [digitsToNat]
      simp [h10, this, dchar_val _ h10]
    · have hdiv : n / 10 < f := by
        have h1 : n / 10 < n := Nat.div_lt_self (by omega) (by omega)
        omega
      simp [h10, digitsToNat_append_digit, ih _ hdiv,
        dchar_val _ (Nat.mod_lt n (by omega)), Nat.div_add_mod]
      omega

theorem natToChars_ne_nil (n : Nat) : natToChars n ≠ [] := by
  obtain ⟨d, t, heq, _⟩ := natChars_head n n
  rw [natToChars, heq]
  simp

theorem takeWhile_all_append (p : Char → Bool) :
    ∀ ds rest, (∀ c ∈ ds, p c = true) → (rest = [] ∨ ∃ c t, rest = c :: t ∧ p c = false) →
      (ds ++ rest).takeWhile p = ds ∧ (ds ++ rest).dropWhile p = rest := by
  intro ds
  induction ds with
  | nil =>
    intro rest _ hrest
    rcases hrest with h | ⟨c, t, rfl, hc⟩
    · subst h; simp
    · simp [List.takeWhile, List.dropWhile, hc]
  | cons d ds ih =>
    intro rest hall hrest
    have hd : p d = true := hall d (by simp)
    have := ih rest (fun c hc => hall c (by simp [hc])) hrest
    simp [List.takeWhile, List.dropWhile, hd, this.1, this.2]

theorem parseNatC_roundtrip (n : Nat) (rest : List Char) (hrest : restOK rest = true) :
    parseNatC (natToChars n ++ rest) = some (n, rest) := by
  have hall : ∀ c ∈ natToChars n, isDigitC c = true := fun c hc => natChars_digits _ _ c hc
  have hrest2 : rest = [] ∨ ∃ c t, rest = c :: t ∧ isDigitC c = false := by
    cases rest with
    | nil => left; rfl
    | cons c t =>
      right
      refine ⟨c, t, rfl, ?_⟩
      simpa [restOK] using hrest
  obtain ⟨htake, hdrop⟩ := takeWhile_all_append isDigitC (natToChars n) rest hall hrest2
  rw [parseNatC]
  simp only [htake, hdrop]
  have hne := natToChars_ne_nil n
  have heval : digitsToNat (natToChars n) = n := natChars_eval (n + 1) n (by omega)
  simp [List.isEmpty_iff, hne, heval]

end Backend

namespace Backend

theorem stringifyC_num (n : Nat) : stringifyC (Json.num n) = natToChars n := by
  rw [stringifyC]

theorem stringify_head (v : Json) : ∃ c t, stringifyC v = c :: t ∧
    (c = '"' ∨ c = '[' ∨ c = lbrace ∨ isDigitC c = true) := by
  cases v with
  | str s => exact ⟨'"', escBody s.data, by rw [stringifyC, strLit], Or.inl rfl⟩
  | num n =>
    obtain ⟨d, t, heq, hd⟩ := natChars_head n n
    exact ⟨dchar d, t, by rw [stringifyC, natToChars, heq],
      Or.inr (Or.inr (Or.inr (dchar_digit _ hd)))⟩
  | arr es => exact ⟨'[', stringifyL es, by rw [stringifyC], Or.inr (Or.inl rfl)⟩
  | obj fs => exact ⟨lbrace, stringifyF fs, by rw [stringifyC], Or.inr (Or.inr (Or.inl rfl))⟩

theorem head_facts (c : Char)
    (h : c = '"' ∨ c = '[' ∨ c = lbrace ∨ isDigitC c = true) :
    c ≠ ']' ∧ c ≠ ',' ∧ c ≠ rbrace ∧ c ≠ ':' := by
  rcases h with rfl | rfl | rfl | h
  · exact ⟨by decide, by decide, by decide, by decide⟩
  · exact ⟨by decide, by decide, by decide, by decide⟩
  · exact ⟨by decide, by decide, by decide, by decide⟩
  · refine ⟨?_, ?_, ?_, ?_⟩ <;> intro e <;> rw [e] at h <;> exact absurd h (by decide)

theorem stringifyC_length_pos (v : Json) : 0 < (stringifyC v).length := by
  obtain ⟨c, t, heq, _⟩ := stringify_head v
  rw [heq]; simp

theorem stringifyL_length_pos (es : JsonList) : 0 < (stringifyL es).length := by
  cases es with
  | nil => rw [stringifyL]; simp
  | cons e tl =>
    cases tl with
    | nil => rw [stringifyL]; simp
    | cons e2 tl2 =>
      rw [stringifyL]
      simp

theorem stringifyF_length_pos (fs : JsonFields) : 0 < (stringifyF fs).length := by
  cases fs with
  | nil => rw [stringifyF]; simp
  | fcons k v tl =>
    cases tl with
    | nil => rw [stringifyF]; simp [strLit]
    | fcons k2 v2 tl2 =>
      rw [stringifyF]
      simp [strLit]

end Backend

namespace Backend

theorem restOK_cons (c : Char) (t : List Char) : restOK (c :: t) = !(isDigitC c) := rfl

theorem parse_stringify_all : ∀ fuel,
    (∀ v rest, (stringifyC v).length ≤ fuel → restOK rest = true →
      parseV fuel (stringifyC v ++ rest) = some (v, rest)) ∧
    (∀ es rest, (stringifyL es).length ≤ fuel →
      parseArr fuel (stringifyL es ++ rest) = some (es, rest)) ∧
    (∀ fs rest, (stringifyF fs).length ≤ fuel →
      parseObj fuel (stringifyF fs ++ rest) = some (fs, rest)) := by
  intro fuel
  induction fuel with
  | zero =>
    refine ⟨?_, ?_, ?_⟩
    · intro v rest hlen _
      exact absurd hlen (by have := stringifyC_length_pos v; omega)
    · intro es rest hlen
      exact absurd hlen (by have := stringifyL_length_pos es; omega)
    · intro fs rest hlen
      exact absurd hlen (by have := stringifyF_length_pos fs; omega)
  | succ f ih =>
    obtain ⟨ihV, ihA, ihO⟩ := ih
    refine ⟨?_, ?_, ?_⟩
    · -- parseV
      intro v rest hlen hrest
      cases v with
      | str s =>
        rw [show stringifyC (Json.str s) = '"' :: escBody s.data from by rw [stringifyC, strLit]]
        rw [parseV.eq_def]
        simp [escBody_parse, stringMk_data]
      | num n =>
        obtain ⟨d, t, heq, hd⟩ := natChars_head n n
        have hdig := dchar_digit _ hd
        have h1 : dchar d ≠ '"' := by intro e; rw [e] at hdig; exact absurd hdig (by decide)
        have h2 : dchar d ≠ '[' := by intro e; rw [e] at hdig; exact absurd hdig (by decide)
        have h3 : dchar d ≠ lbrace := by intro e; rw [e] at hdig; exact absurd hdig (by decide)
        rw [stringifyC_num, natToChars, heq]
        rw [parseV.eq_def]
        simp only [List.cons_append, h1, if_false, h2, h3, hdig, if_true]
        have : dchar d :: (t ++ rest) = natToChars n ++ rest := by
          rw [natToChars, heq]; simp
        rw [this, parseNatC_roundtrip n rest hrest]
        rfl
      | arr es =>
        have hlen2 : (stringifyL es).length ≤ f := by
          rw [show stringifyC (Json.arr es) = '[' :: stringifyL es from by rw [stringifyC]] at hlen
          simp at hlen
          omega
        rw [show stringifyC (Json.arr es) = '[' :: stringifyL es from by rw [stringifyC]]
        rw [parseV.eq_def]
        simp [ihA es rest hlen2]
      | obj fs =>
        have hlen2 : (stringifyF fs).length ≤ f := by
          rw [show stringifyC (Json.obj fs) = lbrace :: stringifyF fs from by rw [stringifyC]] at hlen
          simp at hlen
          omega
        rw [show stringifyC (Json.obj fs) = lbrace :: stringifyF fs from by rw [stringifyC]]
        rw [parseV.eq_def]
        simp [ihO fs rest hlen2, show lbrace ≠ '"' from by decide, show lbrace ≠ '[' from by decide]
    · -- parseArr
      intro es rest hlen
      cases es with
      | nil =>
        rw [show stringifyL JsonList.nil = [']'] from by rw [stringifyL]]
        rw [parseArr.eq_def]
        simp
      | cons e tl =>
        obtain ⟨c, t, heq, hshape⟩ := stringify_head e
        obtain ⟨hc1, hc2, hc3, hc4⟩ := head_facts c hshape
        cases tl with
        | nil =>
          rw [show stringifyL (JsonList.cons e JsonList.nil) = stringifyC e ++ [']'] from by rw [stringifyL]] at hlen ⊢
          have hlenV : (stringifyC e).length ≤ f := by simp at hlen; omega
          have hV := ihV e (']' :: rest) hlenV (by rw [restOK_cons]; decide)
          rw [List.append_assoc, List.singleton_append, heq, List.cons_append]
          rw [parseArr.eq_def]
          simp only [hc1, if_false]
          have harg : c :: (t ++ (']' :: rest)) = stringifyC e ++ (']' :: rest) := by
            rw [heq]; simp
          rw [harg, hV]
          simp
        | cons e2 tl2 =>
          rw [show stringifyL (JsonList.cons e (JsonList.cons e2 tl2)) =
              stringifyC e ++ ',' :: stringifyL (JsonList.cons e2 tl2) from by rw [stringifyL]] at hlen ⊢
          have hlenV : (stringifyC e).length ≤ f := by simp at hlen; omega
          have hlenT : (stringifyL (JsonList.cons e2 tl2)).length ≤ f := by simp at hlen; omega
          have hV := ihV e (',' :: (stringifyL (JsonList.cons e2 tl2) ++ rest)) hlenV (by rw [restOK_cons]; decide)
          rw [List.append_assoc, List.cons_append, heq, List.cons_append]
          rw [parseArr.eq_def]
          simp only [hc1, if_false]
          have harg : c :: (t ++ (',' :: (stringifyL (JsonList.cons e2 tl2) ++ rest))) =
              stringifyC e ++ (',' :: (stringifyL (JsonList.cons e2 tl2) ++ rest)) := by
            rw [heq]; simp
          rw [harg, hV]
          simp [ihA (JsonList.cons e2 tl2) rest hlenT]
    · -- parseObj
      intro fs rest hlen
      cases fs with
      | nil =>
        rw [show stringifyF JsonFields.nil = [rbrace] from by rw [stringifyF]]
        rw [parseObj.eq_def]
        simp
      | fcons k v tl =>
        obtain ⟨c, t, heq, hshape⟩ := stringify_head v
        obtain ⟨hc1, hc2, hc3, hc4⟩ := head_facts c hshape
        cases tl with
        | nil =>
          rw [show stringifyF (JsonFields.fcons k v JsonFields.nil) =
              strLit k ++ ':' :: stringifyC v ++ [rbrace] from by rw [stringifyF]] at hlen ⊢
          have hlenV : (stringifyC v).length ≤ f := by simp [strLit] at hlen; omega
          have hV := ihV v (rbrace :: rest) hlenV (by rw [restOK_cons]; decide)
          rw [strLit]
          rw [show ('"' :: escBody k.data ++ ':' :: stringifyC v ++ [rbrace]) ++ rest =
              '"' :: (escBody k.data ++ (':' :: (stringifyC v ++ (rbrace :: rest)))) from by simp]
          rw [parseObj.eq_def]
          simp only [show ¬('"' = rbrace) from by decide, if_false, if_true]
          rw [escBody_parse]
          simp only [if_true, hV, stringMk_data]
          simp [show ¬(rbrace = ',') from by decide]
        | fcons k2 v2 tl2 =>
          rw [show stringifyF (JsonFields.fcons k v (JsonFields.fcons k2 v2 tl2)) =
              strLit k ++ ':' :: stringifyC v ++ ',' :: stringifyF (JsonFields.fcons k2 v2 tl2) from by
                rw [stringifyF]] at hlen ⊢
          have hlenV : (stringifyC v).length ≤ f := by simp [strLit] at hlen; omega
          have hlenT : (stringifyF (JsonFields.fcons k2 v2 tl2)).length ≤ f := by
            simp [strLit] at hlen; omega
          have hV := ihV v (',' :: (stringifyF (JsonFields.fcons k2 v2 tl2) ++ rest)) hlenV (by rw [restOK_cons]; decide)
          rw [strLit]
          rw [show ('"' :: escBody k.data ++ ':' :: stringifyC v ++
                ',' :: stringifyF (JsonFields.fcons k2 v2 tl2)) ++ rest =
              '"' :: (escBody k.data ++ (':' :: (stringifyC v ++
                (',' :: (stringifyF (JsonFields.fcons k2 v2 tl2) ++ rest))))) from by simp]
          rw [parseObj.eq_def]
          simp only [show ¬('"' = rbrace) from by decide, if_false, if_true]
          rw [escBody_parse]
          simp only [if_true, hV, stringMk_data]
          simp [ihO (JsonFields.fcons k2 v2 tl2) rest hlenT]

theorem jsonParse_stringify (v : Json) : jsonParse (jsonStringify v) = some v := by
  have h := (parse_stringify_all ((stringifyC v).length + 1)).1 v [] (by omega) (by decide)
  rw [jsonParse, jsonStringify]
  simp only [List.append_nil] at h
  simp [h]

end Backend


/-! ## Claims -/

namespace Backend

/-- C2 (amended): `EdDSAService.verify` is a pure function of its inputs;
it returns the boolean core verification result exactly for structurally
well-formed inputs (decoded signature of 64 bytes, decoded public key of
32 bytes), and for malformed key or signature material it throws a wrapped
`Failed to verify signature` error instead of returning `false`. -/
theorem claim2_verify_malformed_throws (core : Ed25519Core) (sig msg pk : String) :
    ((∃ b, EdDSA.verify core sig msg pk = Except.ok b) ↔
      ((base64Decode sig).length = 64 ∧ (base64Decode pk).length = 32)) ∧
    (∀ b, EdDSA.verify core sig msg pk = Except.ok b →
      b = core.verifyCore (utf8Bytes msg) (base64Decode sig) (base64Decode pk)) ∧
    (((base64Decode sig).length ≠ 64 ∨ (base64Decode pk).length ≠ 32) →
      ∃ e, EdDSA.verify core sig msg pk = Except.error e) := by
  rw [EdDSA.verify]
  by_cases h1 : (base64Decode sig).length = 64
  · by_cases h2 : (base64Decode pk).length = 32
    · simp [h1, h2]
    · simp [h1, h2]
  · simp [h1]

/-- C2, the claim as stated is false: on the structurally malformed triple
with an empty signature string (zero decoded bytes), `verify` throws
(`Failed to verify signature: bad signature size`) rather than returning
`false`. -/
theorem claim2_counterexample :
    EdDSA.verify testCore "" "msg" testPk =
      Except.error "Failed to verify signature: bad signature size" := by decide

/-- C2 witness: a well-formed 64-byte signature and 32-byte public key
make `verify` return a boolean. -/
theorem claim2_witness : ∃ b, EdDSA.verify testCore testSk "msg" testPk = Except.ok b :=
  (claim2_verify_malformed_throws testCore testSk "msg" testPk).1.mpr (by decide)

/-- C10: `validateKeyPair` is total — it always returns a boolean, and it
returns `true` exactly when signing the fixed test message with the
private key succeeds and the produced signature verifies as valid under
the public key; every internal throw is absorbed into `false` by its
catch block. -/
theorem claim10_validateKeyPair (core : Ed25519Core) (pk sk : String) :
    EdDSA.validateKeyPair core pk sk = true ↔
      ∃ sd, EdDSA.sign core "test-message-for-validation" sk = Except.ok sd ∧
        EdDSA.verify core sd.signature "test-message-for-validation" pk = Except.ok true := by
  rw [EdDSA.validateKeyPair]
  cases hs : EdDSA.sign core "test-message-for-validation" sk with
  | error e => simp [hs]
  | ok sd =>
    cases hv : EdDSA.verify core sd.signature "test-message-for-validation" pk with
    | error e => simp [hv]
    | ok b =>
      cases b with
      | true => simp [hv]
      | false => simp [hv]

/-- C10 witness: a matching concrete key pair validates. -/
theorem claim10_witness : EdDSA.validateKeyPair testCore testPk testSk = true :=
  (claim10_validateKeyPair testCore testPk testSk).mpr ⟨wSd, by decide, by decide⟩

/-- C6: the code violates the fixed-field-order requirement — the hash is
SHA-256 of `JSON.stringify(document.content || document)`, which follows
the caller's key order, so two representations of the same logical
document (content fields `a: 1, b: 2` in the two orders) serialize
differently and hash differently. -/
theorem claim6_key_order_changes_hash :
    jsonStringify (docContent docKeysAB) ≠ jsonStringify (docContent docKeysBA) ∧
    docHashOf docKeysAB ≠ docHashOf docKeysBA := by decide

end Backend

namespace Backend

theorem addSignature_completed_rejected (core : Ed25519Core) (now : Nat) (uuid : String)
    (s : Session) (role k : String) (i : SignerInfo) (h : s.status = "completed") :
    MultiSig.addSignature core now uuid s role k i =
      Except.error "Failed to add signature: Multi-signature session is already completed" := by
  rw [MultiSig.addSignature]
  simp [h, MultiSig.wrapAdd]

/-- C4 (amended): `addSignature` rejects sessions whose status is
`completed` and (lazily, against `expiresAt` at call time) expired
sessions, throwing before any mutation — in the source every throw
precedes the first mutation of the session, so an error leaves the
session unchanged.  A `cancelled` status is not checked. -/
theorem claim4_closed_sessions_rejected (core : Ed25519Core) (now : Nat) (uuid : String)
    (s : Session) (role k : String) (i : SignerInfo) :
    (s.status = "completed" →
      MultiSig.addSignature core now uuid s role k i =
        Except.error "Failed to add signature: Multi-signature session is already completed") ∧
    (s.status ≠ "completed" → s.expiresAt < now →
      MultiSig.addSignature core now uuid s role k i =
        Except.error "Failed to add signature: Multi-signature session has expired") := by
  constructor
  · intro h
    exact addSignature_completed_rejected core now uuid s role k i h
  · intro h hexp
    rw [MultiSig.addSignature]
    simp [h, hexp, MultiSig.wrapAdd]

/-- C4, the claim as stated is false: a session record carrying status
`cancelled` (pending in every other respect, unexpired) is not rejected —
`addSignature` accepts and stores the signature. -/
theorem claim4_counterexample :
    wCancelled.status = "cancelled" ∧
    (MultiSig.addSignature testCore 1 "u-c" wCancelled "dosen" testSk
      { name := "D", email := "d@x" }).isOk = true := by decide

/-- C4 witness: a completed session and an expired session are both
rejected with the corresponding messages. -/
theorem claim4_witness :
    MultiSig.addSignature testCore 9 "u-w" wS2 "dekan" testSk { name := "E", email := "e@x" } =
      Except.error "Failed to add signature: Multi-signature session is already completed" ∧
    MultiSig.addSignature testCore 2000 "u-x" wExpired "dosen" testSk { name := "D", email := "d@x" } =
      Except.error "Failed to add signature: Multi-signature session has expired" :=
  ⟨(claim4_closed_sessions_rejected testCore 9 "u-w" wS2 "dekan" testSk
      { name := "E", email := "e@x" }).1 (by decide),
   (claim4_closed_sessions_rejected testCore 2000 "u-x" wExpired "dosen" testSk
      { name := "D", email := "d@x" }).2 (by decide) (by decide)⟩

/-- C3 (amended): in an open session (not `completed`, not expired) whose
required signers include the role, a second `addSignature` for an
already-signed role always throws the duplicate-signature error; since
every throw in the source precedes its first mutation, the session is
left unchanged. -/
theorem claim3_duplicate_role_rejected (core : Ed25519Core) (now : Nat) (uuid : String)
    (s : Session) (role k : String) (i : SignerInfo)
    (hopen : s.status ≠ "completed") (hexp : ¬ s.expiresAt < now)
    (hreq : (s.requiredSigners.find? (fun rs => rs.role = role)).isSome = true)
    (hdup : (s.signatures.find? (fun sg => sg.signer.role = role)).isSome = true) :
    MultiSig.addSignature core now uuid s role k i =
      Except.error ("Failed to add signature: Signer with role '" ++ role ++
        "' has already signed this document") := by
  rw [MultiSig.addSignature]
  rw [Option.isSome_iff_exists] at hreq hdup
  obtain ⟨rs, hrs⟩ := hreq
  obtain ⟨sg, hsg⟩ := hdup
  simp [hopen, hexp, hrs, hsg, MultiSig.wrapAdd]
  rw [← String.append_assoc, ← String.append_assoc]
  rw [show ("Failed to add signature: " : String) ++ "Signer with role '" =
    "Failed to add signature: Signer with role '" from by decide]

/-- C3, the claim as stated is false: in a *completed* session the role
`dosen` already has a stored signature, yet a second call for that role
fails with the session-closed error, not the duplicate-signature error. -/
theorem claim3_counterexample :
    ((wS2.signatures.find? (fun sg => sg.signer.role = "dosen")).isSome = true) ∧
    MultiSig.addSignature testCore 3 "u-9" wS2 "dosen" testSk { name := "D", email := "d@x" } =
      Except.error "Failed to add signature: Multi-signature session is already completed" := by
  decide

/-- C3 witness: in a pending threshold-3 session where `dosen` has
already signed, a second `dosen` signature fails with the duplicate
error. -/
theorem claim3_witness :
    MultiSig.addSignature testCore 3 "u-3" wA1 "dosen" testSk { name := "D", email := "d@x" } =
      Except.error "Failed to add signature: Signer with role 'dosen' has already signed this document" := by
  have h := claim3_duplicate_role_rejected testCore 3 "u-3" wA1 "dosen" testSk
    { name := "D", email := "d@x" } (by decide) (by decide) (by decide) (by decide)
  exact h

end Backend

namespace Backend

theorem addSignature_ok_inv {core : Ed25519Core} {now : Nat} {uuid : String}
    {s : Session} {role k : String} {i : SignerInfo} {s2 : Session}
    (h : MultiSig.addSignature core now uuid s role k i = Except.ok s2) :
    s.status ≠ "completed" ∧
    s2.signatures.length = s.signatures.length + 1 ∧
    s2.threshold = s.threshold ∧
    (s.threshold ≤ s.signatures.length + 1 →
      s2.status = "completed" ∧ s2.completedAt = some now) ∧
    (¬ s.threshold ≤ s.signatures.length + 1 →
      s2.status = s.status ∧ s2.completedAt = s.completedAt) := by
  rw [MultiSig.addSignature] at h
  by_cases h1 : s.status = "completed"
  · simp [h1] at h
  · simp only [h1, if_false, ite_false] at h
    by_cases h2 : s.expiresAt < now
    · simp [h2] at h
    · simp only [h2, if_false, ite_false] at h
      cases hr : s.requiredSigners.find? (fun rs => rs.role = role) with
      | none => simp only [hr] at h; simp at h
      | some rs =>
        simp only [hr] at h
        cases hd : s.signatures.find? (fun sg => sg.signer.role = role) with
        | some sg => simp only [hd] at h; simp at h
        | none =>
          simp only [hd] at h
          cases hs : EdDSA.sign core s.documentHash k with
          | error e => simp only [hs] at h; simp at h
          | ok sd =>
            simp only [hs] at h
            cases hp : EdDSA.getPublicKeyFromPrivate core k with
            | error e => simp only [hp] at h; simp at h
            | ok pub =>
              simp only [hp] at h
              cases hv : EdDSA.verify core sd.signature s.documentHash pub with
              | error e => simp only [hv] at h; simp at h
              | ok b =>
                simp only [hv] at h
                cases b with
                | false => simp at h
                | true =>
                  by_cases ht : s.threshold ≤ s.signatures.length + 1
                  · simp only [if_true, List.length_append, List.length_cons,
                      List.length_nil, Nat.zero_add, ht, ite_true] at h
                    injection h with h
                    subst h
                    refine ⟨h1, by simp, by simp, fun _ => ⟨rfl, rfl⟩, fun hc => absurd ht hc⟩
                  · simp only [if_true, List.length_append, List.length_cons,
                      List.length_nil, Nat.zero_add, ht, ite_false] at h
                    injection h with h
                    subst h
                    refine ⟨h1, by simp, by simp, fun hc => absurd hc ht, fun _ => ⟨rfl, rfl⟩⟩

end Backend

namespace Backend

/-- C1: for a session with threshold 2 and three required signers, the
first accepted `addSignature` leaves the status `pending` (and the
completion timestamp untouched), the second accepted one sets the status
to `completed` and records `completedAt`, and afterwards every further
`addSignature` call is rejected with the session-closed error — the
status transitions to `completed` exactly on reaching the threshold and
never reverts. -/
theorem claim1_threshold_completion (core : Ed25519Core) (now1 now2 : Nat) (u1 u2 : String)
    (s0 s1 s2 : Session) (r1 k1 : String) (i1 : SignerInfo) (r2 k2 : String) (i2 : SignerInfo)
    (hth : s0.threshold = 2) (hsigs : s0.signatures = []) (hst : s0.status = "pending")
    (_hreq : s0.requiredSigners.length = 3)
    (h1 : MultiSig.addSignature core now1 u1 s0 r1 k1 i1 = Except.ok s1)
    (h2 : MultiSig.addSignature core now2 u2 s1 r2 k2 i2 = Except.ok s2) :
    s1.status = "pending" ∧ s1.completedAt = s0.completedAt ∧
    s2.status = "completed" ∧ s2.completedAt = some now2 ∧
    ∀ now3 u3 r3 k3 i3, MultiSig.addSignature core now3 u3 s2 r3 k3 i3 =
      Except.error "Failed to add signature: Multi-signature session is already completed" := by
  obtain ⟨-, hlen1, hth1, -, hlt1⟩ := addSignature_ok_inv h1
  have hs0len : s0.signatures.length = 0 := by rw [hsigs]; rfl
  have hnot1 : ¬ s0.threshold ≤ s0.signatures.length + 1 := by
    rw [hth, hs0len]; omega
  obtain ⟨hst1, hca1⟩ := hlt1 hnot1
  obtain ⟨-, hlen2, hth2, hge2, -⟩ := addSignature_ok_inv h2
  have hyes2 : s1.threshold ≤ s1.signatures.length + 1 := by
    rw [hth1, hth, hlen1, hs0len]
  obtain ⟨hst2, hca2⟩ := hge2 hyes2
  refine ⟨by rw [hst1, hst], by rw [hca1], hst2, hca2, ?_⟩
  intro now3 u3 r3 k3 i3
  exact addSignature_completed_rejected core now3 u3 s2 r3 k3 i3 hst2

/-- C1 witness: the concrete dosen/kaprodi/dekan scenario. -/
theorem claim1_witness :
    wS1.status = "pending" ∧ wS2.status = "completed" ∧ wS2.completedAt = some 2 ∧
    MultiSig.addSignature testCore 3 "u-3" wS2 "dekan" testSk { name := "E", email := "e@x" } =
      Except.error "Failed to add signature: Multi-signature session is already completed" := by
  obtain ⟨a, -, c, d, e⟩ := claim1_threshold_completion testCore 1 2 "u-1" "u-2" w0 wS1 wS2
    "dosen" testSk { name := "D", email := "d@x" } "kaprodi" testSk { name := "K", email := "k@x" }
    (by decide) (by decide) (by decide) (by decide) (by decide) (by decide)
  exact ⟨a, c, d, e 3 "u-3" "dekan" testSk { name := "E", email := "e@x" }⟩

end Backend

namespace Backend

/-- C5: session verification recomputes the document hash first and, on a
mismatch, short-circuits to an invalid result with an empty per-signature
list and the tamper-specific reason; on a match it verifies every stored
signature independently (the result list is the elementwise image of the
stored signatures, each entry determined by its own signature alone, a
thrown verification error being absorbed into that entry), and the
overall result is valid iff the number of individually valid signatures
reaches the session threshold. -/
theorem claim5_session_verification (core : Ed25519Core) (s : Session) (document : Json) :
    (docHashOf document ≠ s.documentHash →
      MultiSig.verifyMultiSignature core s document =
        { valid := false, reason := "Document has been modified after signing",
          documentHashMatch := false, signatureResults := [], threshold := none,
          totalSignatures := none, validSignatures := none, sessionStatus := none }) ∧
    (docHashOf document = s.documentHash →
      (MultiSig.verifyMultiSignature core s document).documentHashMatch = true ∧
      (MultiSig.verifyMultiSignature core s document).signatureResults =
        s.signatures.map (MultiSig.verifyOne core s.documentHash) ∧
      (∀ sig, (MultiSig.verifyOne core s.documentHash sig).valid = true ↔
        EdDSA.verify core sig.signature s.documentHash sig.signer.publicKey = Except.ok true) ∧
      ((MultiSig.verifyMultiSignature core s document).valid = true ↔
        s.threshold ≤ (s.signatures.filter (fun sig =>
          (MultiSig.verifyOne core s.documentHash sig).valid)).length)) := by
  constructor
  · intro hne
    rw [MultiSig.verifyMultiSignature]
    simp [hne]
  · intro heqh
    have hfm : (s.signatures.map (MultiSig.verifyOne core s.documentHash)).filter
        (fun r => r.valid) =
        (s.signatures.filter (fun sig => (MultiSig.verifyOne core s.documentHash sig).valid)).map
          (MultiSig.verifyOne core s.documentHash) := List.filter_map _ _
    refine ⟨?_, ?_, ?_, ?_⟩
    · simp [MultiSig.verifyMultiSignature, heqh]
    · simp [MultiSig.verifyMultiSignature, heqh]
    · intro sig
      rw [MultiSig.verifyOne]
      cases hv : EdDSA.verify core sig.signature s.documentHash sig.signer.publicKey with
      | error e => simp
      | ok b => cases b <;> simp
    · simp [MultiSig.verifyMultiSignature, heqh, hfm]

/-- C5 witness: a mismatching document short-circuits to the tamper
result on a concrete session. -/
theorem claim5_witness :
    MultiSig.verifyMultiSignature testCore w0 docA =
      { valid := false, reason := "Document has been modified after signing",
        documentHashMatch := false, signatureResults := [], threshold := none,
        totalSignatures := none, validSignatures := none, sessionStatus := none } :=
  (claim5_session_verification testCore w0 docA).1 (by decide)

end Backend

namespace Backend

theorem firstIdx_le : ∀ (roles : List String) (i : Nat) (r : String),
    roles[i]? = some r → MultiSig.firstIdx r roles ≤ i := by
  intro roles
  induction roles with
  | nil => intro i r h; simp at h
  | cons x xs ih =>
    intro i r h
    cases i with
    | zero =>
      simp at h
      rw [MultiSig.firstIdx]
      simp [h]
    | succ j =>
      simp at h
      rw [MultiSig.firstIdx]
      by_cases hx : x = r
      · simp [hx]
      · simp [hx]
        have := ih j r (by simpa using h)
        omega

theorem firstIdx_get : ∀ (roles : List String) (r : String), r ∈ roles →
    MultiSig.firstIdx r roles < roles.length ∧ roles[MultiSig.firstIdx r roles]? = some r := by
  intro roles
  induction roles with
  | nil => intro r h; simp at h
  | cons x xs ih =>
    intro r h
    rw [MultiSig.firstIdx]
    by_cases hx : x = r
    · simp [hx]
    · have hmem : r ∈ xs := by
        rcases List.mem_cons.mp h with h1 | h1
        · exact absurd h1.symm hx
        · exact h1
      obtain ⟨hlt, hget⟩ := ih r hmem
      constructor
      · simp [hx]; omega
      · simp [hx, hget]

theorem duplicateRoles_nil_iff (roles : List String) :
    MultiSig.duplicateRoles roles = [] ↔ roles.Nodup := by
  rw [MultiSig.duplicateRoles, List.map_eq_nil_iff, List.filter_eq_nil_iff]
  have hforall : (∀ p ∈ roles.enum, ¬ (decide (MultiSig.firstIdx p.2 roles ≠ p.1) = true)) ↔
      ∀ i, ∀ _ : i < roles.length, MultiSig.firstIdx roles[i] roles = i := by
    rw [List.forall_mem_enum]
    constructor
    · intro h i hi
      have := h i hi
      simpa using this
    · intro h i hi
      simpa using h i hi
  rw [hforall]
  constructor
  · intro hall
    rw [List.nodup_iff_getElem?_ne_getElem?]
    intro i j hij hj hconTra
    have hi : i < roles.length := lt_trans hij hj
    rw [List.getElem?_eq_getElem hi, List.getElem?_eq_getElem hj] at hconTra
    have heqr : roles[i] = roles[j] := by simpa using hconTra
    have h1 := hall i hi
    have h2 := hall j hj
    rw [heqr] at h1
    omega
  · intro hnd i hi
    have hmem : roles[i] ∈ roles := List.getElem_mem hi
    obtain ⟨hlt, hget⟩ := firstIdx_get roles roles[i] hmem
    have hle : MultiSig.firstIdx roles[i] roles ≤ i :=
      firstIdx_le roles i roles[i] (List.getElem?_eq_getElem hi)
    rcases Nat.lt_or_ge (MultiSig.firstIdx roles[i] roles) i with hlt2 | hge
    · exfalso
      have := (List.nodup_iff_getElem?_ne_getElem?.mp hnd)
        (MultiSig.firstIdx roles[i] roles) i hlt2 hi
      rw [hget, List.getElem?_eq_getElem hi] at this
      exact this rfl
    · omega

end Backend

namespace Backend

theorem iteSingleton_eq_nil_iff {c : Prop} [Decidable c] (x : String) :
    ((if c then [x] else []) = []) ↔ ¬ c := by
  by_cases h : c <;> simp [h]

/-- C9: config validation accepts exactly the configurations with
`2 ≤ threshold ≤ |signers| ≤ 5` and pairwise-distinct roles, and when
rules are violated the result's `errors` list carries a message for every
violated rule at once (each violated rule's message is present, whichever
other rules are also violated). -/
theorem claim9_config_validation (signers : List SignerSpec) (threshold : Nat) :
    ((MultiSig.validateMultiSigConfig signers threshold).valid = true ↔
      (2 ≤ threshold ∧ threshold ≤ signers.length ∧ signers.length ≤ 5 ∧
        (signers.map (fun s => s.role)).Nodup)) ∧
    (threshold < 2 →
      "Minimum threshold is 2" ∈ (MultiSig.validateMultiSigConfig signers threshold).errors) ∧
    (5 < signers.length →
      "Maximum 5 signers allowed" ∈ (MultiSig.validateMultiSigConfig signers threshold).errors) ∧
    (signers.length < threshold →
      "Threshold cannot exceed number of signers" ∈ (MultiSig.validateMultiSigConfig signers threshold).errors) ∧
    (signers.length = 0 →
      "At least one signer is required" ∈ (MultiSig.validateMultiSigConfig signers threshold).errors) ∧
    (¬ (signers.map (fun s => s.role)).Nodup →
      ("Duplicate signer roles found: " ++
        String.intercalate ", " (MultiSig.duplicateRoles (signers.map (fun s => s.role)))) ∈
        (MultiSig.validateMultiSigConfig signers threshold).errors) := by
  have m1 : ("Minimum threshold is " ++ natStr 2) = "Minimum threshold is 2" := by decide
  have m2 : ("Maximum " ++ natStr 5 ++ " signers allowed") = "Maximum 5 signers allowed" := by decide
  have hnodup := duplicateRoles_nil_iff (signers.map (fun s => s.role))
  refine ⟨?_, ?_, ?_, ?_, ?_, ?_⟩
  · rw [MultiSig.validateMultiSigConfig]
    simp only [MIN_SIGNERS, MAX_SIGNERS, List.isEmpty_iff, List.append_eq_nil,
      iteSingleton_eq_nil_iff]
    by_cases h5 : MultiSig.duplicateRoles (signers.map (fun s => s.role)) = []
    · have hnd := hnodup.mp h5
      by_cases h1 : signers.length = 0 <;> by_cases h2 : 5 < signers.length <;>
        by_cases h3 : threshold < 2 <;> by_cases h4 : signers.length < threshold <;>
        simp [h1, h2, h3, h4, h5, hnd] <;> omega
    · have hnd : ¬ (signers.map (fun s => s.role)).Nodup := fun hnd => h5 (hnodup.mpr hnd)
      by_cases h1 : signers.length = 0 <;> by_cases h2 : 5 < signers.length <;>
        by_cases h3 : threshold < 2 <;> by_cases h4 : signers.length < threshold <;>
        simp [h1, h2, h3, h4, h5, hnd]
  · intro h
    rw [MultiSig.validateMultiSigConfig]
    simp only [MIN_SIGNERS, MAX_SIGNERS]
    simp [h, m1]
  · intro h
    rw [MultiSig.validateMultiSigConfig]
    simp only [MIN_SIGNERS, MAX_SIGNERS]
    simp [h, m2]
  · intro h
    rw [MultiSig.validateMultiSigConfig]
    simp [h]
  · intro h
    rw [MultiSig.validateMultiSigConfig]
    simp [h]
  · intro h
    have h5 : ¬ MultiSig.duplicateRoles (signers.map (fun s => s.role)) = [] := by
      intro hc; exact h (hnodup.mp hc)
    rw [MultiSig.validateMultiSigConfig]
    simp [h5, List.isEmpty_iff]

/-- C9 witness: a duplicated role together with a too-small threshold
reports both violations at once. -/
theorem claim9_witness :
    "Minimum threshold is 2" ∈ (MultiSig.validateMultiSigConfig [specD, specD] 1).errors ∧
    ("Duplicate signer roles found: " ++
      String.intercalate ", " (MultiSig.duplicateRoles ([specD, specD].map (fun s => s.role)))) ∈
      (MultiSig.validateMultiSigConfig [specD, specD] 1).errors :=
  ⟨(claim9_config_validation [specD, specD] 1).2.1 (by decide),
   (claim9_config_validation [specD, specD] 1).2.2.2.2.2 (by decide)⟩

end Backend

namespace Backend

theorem payload_type_tag (sd : SignatureData) (meta : DocMeta) (nowIso : String) :
    jsonGet (QR.verificationPayload sd meta nowIso) "type" =
      some (Json.str "document_verification") := by
  rw [QR.verificationPayload, objOf]
  simp [jsonGet, jsonFieldsOf, jsonGetF]

theorem reference_type_tag (sd : SignatureData) (meta : DocMeta) (uuid : String) :
    jsonGet (QR.referenceJson sd meta uuid) "type" = some (Json.str "verification_url") := by
  rw [QR.referenceJson, objOf]
  simp [jsonGet, jsonFieldsOf, jsonGetF]

theorem reference_quickVerify (sd : SignatureData) (meta : DocMeta) (uuid : String) :
    jsonGet (QR.referenceJson sd meta uuid) "quickVerify" = some (QR.quickVerifyJson sd) := by
  rw [QR.referenceJson, objOf]
  cases meta.id <;> simp [jsonGet, jsonFieldsOf, jsonGetF]

theorem quickVerify_fields (sd : SignatureData) :
    jsonGet (QR.quickVerifyJson sd) "documentHash" =
      some (Json.str (sd.documentHash.take 16)) ∧
    jsonGet (QR.quickVerifyJson sd) "signatureCount" =
      some (Json.num (match sd.signatures with
        | some sigs => sigs.length
        | none => 1)) := by
  rw [QR.quickVerifyJson, objOf]
  cases sd.signatures <;> simp [jsonGet, jsonFieldsOf, jsonGetF]

end Backend

namespace Backend

theorem parseQRData_reference (sd : SignatureData) (meta : DocMeta) (uuid : String) :
    QR.parseQRData (jsonStringify (QR.referenceJson sd meta uuid)) =
      Except.ok
        { ptype := "url_verification",
          verificationId := jsonGet (QR.referenceJson sd meta uuid) "verificationId",
          url := jsonGet (QR.referenceJson sd meta uuid) "url",
          documentId := jsonGet (QR.referenceJson sd meta uuid) "documentId",
          quickVerify := jsonGet (QR.referenceJson sd meta uuid) "quickVerify",
          payload := none } := by
  rw [QR.parseQRData]
  simp [jsonParse_stringify, reference_type_tag]

theorem parseQRData_embedded (sd : SignatureData) (meta : DocMeta) (nowIso : String) :
    QR.parseQRData (jsonStringify (QR.verificationPayload sd meta nowIso)) =
      Except.ok
        { ptype := "embedded_verification",
          verificationId := none, url := none, documentId := none, quickVerify := none,
          payload := some (QR.verificationPayload sd meta nowIso) } := by
  rw [QR.parseQRData]
  simp [jsonParse_stringify, payload_type_tag]

/-- C7: QR encoding produces the reference (`verification_url`) variant
exactly when the serialized embedded payload exceeds 2000 characters, and
decoding the produced QR data always succeeds and classifies the result
(`url_verification` vs `embedded_verification`) identically to the
variant that was produced. -/
theorem claim7_qr_roundtrip (sd : SignatureData) (meta : DocMeta) (uuid nowIso : String) :
    ((QR.generateDocumentQR sd meta uuid nowIso).compressed = true ↔
      2000 < (jsonStringify (QR.verificationPayload sd meta nowIso)).length) ∧
    ∃ p, QR.parseQRData (QR.generateDocumentQR sd meta uuid nowIso).qrData = Except.ok p ∧
      p.ptype = (if (QR.generateDocumentQR sd meta uuid nowIso).compressed then
        "url_verification" else "embedded_verification") := by
  by_cases hsize : 2000 < (jsonStringify (QR.verificationPayload sd meta nowIso)).length
  · have hgen : QR.generateDocumentQR sd meta uuid nowIso =
        { qrData := jsonStringify (QR.referenceJson sd meta uuid),
          payload := QR.verificationPayload sd meta nowIso,
          size := (jsonStringify (QR.verificationPayload sd meta nowIso)).length,
          compressed := true } := by
      rw [QR.generateDocumentQR]; simp [hsize]
    rw [hgen]
    refine ⟨by simp [hsize], _, parseQRData_reference sd meta uuid, ?_⟩
    simp
  · have hgen : QR.generateDocumentQR sd meta uuid nowIso =
        { qrData := jsonStringify (QR.verificationPayload sd meta nowIso),
          payload := QR.verificationPayload sd meta nowIso,
          size := (jsonStringify (QR.verificationPayload sd meta nowIso)).length,
          compressed := false } := by
      rw [QR.generateDocumentQR]; simp [hsize]
    rw [hgen]
    refine ⟨by simp [hsize], _, parseQRData_embedded sd meta nowIso, ?_⟩
    simp

/-- C8: whenever encoding takes the reference variant (serialized
embedded payload over 2000 characters), the produced QR data decodes to a
result whose `quickVerify` fingerprint carries the truncated document
hash — the first 16 characters of the artifact's full `documentHash` —
together with the artifact's signature count (`signatures.length` for an
aggregate, 1 for a single-signature artifact). -/
theorem claim8_reference_fingerprint (sd : SignatureData) (meta : DocMeta) (uuid nowIso : String)
    (hbig : 2000 < (jsonStringify (QR.verificationPayload sd meta nowIso)).length) :
    ∃ p, QR.parseQRData (QR.generateDocumentQR sd meta uuid nowIso).qrData = Except.ok p ∧
      ∃ qv, p.quickVerify = some qv ∧
        jsonGet qv "documentHash" = some (Json.str (sd.documentHash.take 16)) ∧
        jsonGet qv "signatureCount" = some (Json.num (match sd.signatures with
          | some sigs => sigs.length
          | none => 1)) := by
  have hgen : QR.generateDocumentQR sd meta uuid nowIso =
      { qrData := jsonStringify (QR.referenceJson sd meta uuid),
        payload := QR.verificationPayload sd meta nowIso,
        size := (jsonStringify (QR.verificationPayload sd meta nowIso)).length,
        compressed := true } := by
    rw [QR.generateDocumentQR]; simp [hbig]
  rw [hgen]
  exact ⟨_, parseQRData_reference sd meta uuid, QR.quickVerifyJson sd,
    reference_quickVerify sd meta uuid, (quickVerify_fields sd).1, (quickVerify_fields sd).2⟩

/-- C8 witness: a concrete oversized aggregate artifact takes the
reference variant and carries the expected fingerprint. -/
theorem escBody_length_ge (cs : List Char) : cs.length ≤ (escBody cs).length := by
  induction cs with
  | nil => simp [escBody]
  | cons c cs ih =>
    rw [escBody]
    have h1 : 1 ≤ (escapeChar c).length := by
      rw [escapeChar]
      repeat' split
      all_goals simp
    simp only [List.length_append, List.length_cons]
    omega

theorem strLit_length_ge (s : String) : s.length + 1 ≤ (strLit s).length := by
  rw [strLit]
  have := escBody_length_ge s.data
  simp only [List.length_cons]
  have hlen : s.length = s.data.length := rfl
  omega

theorem stringifyF_ge_val_aux : ∀ (n : Nat) (fs : JsonFields) (k : String) (v : Json),
    fieldsLen fs ≤ n → jsonGetF k fs = some v →
    (stringifyC v).length ≤ (stringifyF fs).length := by
  intro n
  induction n with
  | zero =>
    intro fs k v hn h
    cases fs with
    | nil => simp [jsonGetF] at h
    | fcons k2 v2 tl => rw [fieldsLen] at hn; omega
  | succ m ih =>
    intro fs k v hn h
    cases fs with
    | nil => simp [jsonGetF] at h
    | fcons k2 v2 tl =>
      rw [jsonGetF] at h
      rw [fieldsLen] at hn
      by_cases hk : k2 = k
      · simp only [hk, if_true, ite_true, Option.some.injEq] at h
        subst h
        cases tl with
        | nil => rw [stringifyF]; simp; omega
        | fcons k3 v3 tl3 => rw [stringifyF]; simp; omega
      · simp only [hk, if_false, ite_false] at h
        have := ih tl k v (by omega) h
        cases tl with
        | nil => simp [jsonGetF] at h
        | fcons k3 v3 tl3 =>
          rw [stringifyF]
          simp only [List.length_append, List.length_cons]
          omega

theorem stringifyF_ge_val (fs : JsonFields) (k : String) (v : Json)
    (h : jsonGetF k fs = some v) :
    (stringifyC v).length ≤ (stringifyF fs).length :=
  stringifyF_ge_val_aux (fieldsLen fs) fs k v (Nat.le_refl _) h

theorem stringifyL_ge_head (e : Json) (tl : JsonList) :
    (stringifyC e).length ≤ (stringifyL (JsonList.cons e tl)).length := by
  cases tl with
  | nil => rw [stringifyL]; simp
  | cons e2 tl2 => rw [stringifyL]; simp

theorem stringifyC_obj_len (fs : JsonFields) :
    (stringifyC (Json.obj fs)).length = 1 + (stringifyF fs).length := by
  rw [stringifyC]; simp [Nat.add_comm]

theorem stringifyC_arr_len (es : JsonList) :
    (stringifyC (Json.arr es)).length = 1 + (stringifyL es).length := by
  rw [stringifyC]; simp [Nat.add_comm]

theorem stringifyC_ge_getField (j : Json) (k : String) (v : Json)
    (h : jsonGet j k = some v) :
    (stringifyC v).length ≤ (stringifyC j).length := by
  cases j with
  | obj fs =>
    rw [stringifyC_obj_len]
    rw [jsonGet] at h
    have := stringifyF_ge_val fs k v h
    omega
  | str s => simp [jsonGet] at h
  | num n => simp [jsonGet] at h
  | arr es => simp [jsonGet] at h

theorem sigDataBig_payload_large (nowIso : String) :
    2000 < (jsonStringify (QR.verificationPayload sigDataBig metaA nowIso)).length := by
  have hsig : jsonGet (QR.verificationPayload sigDataBig metaA nowIso) "signature" =
      some (Json.obj (jsonFieldsOf
        [("algorithm", Json.str "EdDSA-Multi"),
         ("data", Json.arr (jsonListOf [Json.str (bigName)])),
         ("signers", Json.arr (jsonListOf [Json.obj (jsonFieldsOf [])]))])) := by
    rw [QR.verificationPayload]
    simp [sigDataBig, metaA, objOf, jsonGet, jsonFieldsOf, jsonGetF]
  have hdata : jsonGet (Json.obj (jsonFieldsOf
        [("algorithm", Json.str "EdDSA-Multi"),
         ("data", Json.arr (jsonListOf [Json.str (bigName)])),
         ("signers", Json.arr (jsonListOf [Json.obj (jsonFieldsOf [])]))])) "data" =
      some (Json.arr (jsonListOf [Json.str (bigName)])) := by
    simp [jsonGet, jsonFieldsOf, jsonGetF]
  have b1 := stringifyC_ge_getField _ _ _ hsig
  have b2 := stringifyC_ge_getField _ _ _ hdata
  have bstr : 2101 ≤ (stringifyC (Json.str (bigName))).length := by
    rw [show stringifyC (Json.str bigName) = strLit bigName from by rw [stringifyC]]
    have h1 := strLit_length_ge bigName
    have h2 : bigName.length = 2100 := by
      rw [show bigName.length = (List.replicate 2100 'x').length from rfl]
      rw [List.length_replicate]
    omega
  have barr : (stringifyC (Json.str (bigName))).length ≤
      (stringifyC (Json.arr (jsonListOf [Json.str (bigName)]))).length := by
    rw [stringifyC_arr_len]
    have := stringifyL_ge_head (Json.str (bigName)) JsonList.nil
    rw [show jsonListOf [Json.str (bigName)] =
      JsonList.cons (Json.str (bigName)) JsonList.nil from rfl]
    omega
  have hfinal : (jsonStringify (QR.verificationPayload sigDataBig metaA nowIso)).length =
      (stringifyC (QR.verificationPayload sigDataBig metaA nowIso)).length := rfl
  omega

set_option maxRecDepth 4000 in
/-- C8 witness: a concrete oversized aggregate artifact takes the
reference variant and carries the expected fingerprint. -/
theorem claim8_witness :
    ∃ p, QR.parseQRData (QR.generateDocumentQR sigDataBig metaA "uuid-1" "now").qrData = Except.ok p ∧
      ∃ qv, p.quickVerify = some qv ∧
        jsonGet qv "documentHash" = some (Json.str (sigDataBig.documentHash.take 16)) ∧
        jsonGet qv "signatureCount" = some (Json.num 1) := by
  have h := claim8_reference_fingerprint sigDataBig metaA "uuid-1" "now"
    (sigDataBig_payload_large "now")
  simpa [sigDataBig] using h

end Backend
